import Mathlib

/- Shallow embedding of the repository's synchronization primitives
   (sync/once.go, the Mutex file, sync/rwmutex.go with the concurrent Map,
   sync/waitgroup.go, sync/pool.go).

   Machine integers are modelled as `Nat` bit patterns (for `uint32`/`uint64`
   state words manipulated with bit operations) or as `Int` (for `int32`
   counters), with wrap-around made explicit via `% 2^w`.  Calls are modelled
   sequentially (one call runs to completion at a time); compare-and-swap
   steps that can fail only because of concurrent interference carry an
   explicit `casOk` oracle where that matters. -/

/-- Addition on a 32-bit word stored as a `Nat` bit pattern:
`atomic.AddInt32` adds a (possibly negative) delta, wrapping modulo `2^32`. -/
def i32addBits (s : Nat) (d : Int) : Nat := (((s : Int) + d) % (2 ^ 32)).toNat

/-- Signed reading of a 32-bit pattern (`int32(x)` for `x < 2^32`). -/
def toInt32 (x : Nat) : Int := if x < 2 ^ 31 then (x : Int) else (x : Int) - 2 ^ 32

/-- Truncation of an integer into the `int32` range (two's complement). -/
def wrap32 (x : Int) : Int := (x + 2 ^ 31) % (2 ^ 32) - 2 ^ 31

/-- Bridge lemma: or-ing the low bit into an even number is adding 1. -/
theorem lor_one_of_even (a : Nat) (h : a % 2 = 0) : a ||| 1 = a + 1 := by
  obtain ⟨q, rfl⟩ : ∃ q, a = 2 * q := ⟨a / 2, by omega⟩
  have h1 : 2 * q = Nat.bit false q := by simp [Nat.bit]
  have h2 : (1 : Nat) = Nat.bit true 0 := by simp [Nat.bit]
  rw [h1, h2, Nat.lor_bit]
  simp [Nat.bit]

/-- Bridge lemma: or-ing bit 1 into a multiple of 8 is adding 2. -/
theorem lor_two_of_mod8 (a : Nat) (h : a % 8 = 0) : a ||| 2 = a + 2 := by
  obtain ⟨q, rfl⟩ : ∃ q, a = 2 * (2 * (2 * q)) := ⟨a / 8, by omega⟩
  have h1 : 2 * (2 * (2 * q)) = Nat.bit false (Nat.bit false (2 * q)) := by
    simp [Nat.bit]
  have h2 : (2 : Nat) = Nat.bit false (Nat.bit true 0) := by simp [Nat.bit]
  rw [h1, h2, Nat.lor_bit, Nat.lor_bit]
  simp [Nat.bit]
  omega

/-- Bridge lemma: a word with bits 0 and 2 clear has bit 0 clear. -/
theorem land_one_of_land_five (a : Nat) (h : a &&& 5 = 0) : a &&& 1 = 0 := by
  have h51 : (5 : Nat) &&& 1 = 1 := by decide
  calc a &&& 1 = a &&& 5 &&& 1 := by rw [Nat.land_assoc, h51]
    _ = 0 &&& 1 := by rw [h]
    _ = 0 := by decide

/-- Bridge lemma: a word with bits 0 and 2 clear has bit 2 clear. -/
theorem land_four_of_land_five (a : Nat) (h : a &&& 5 = 0) : a &&& 4 = 0 := by
  have h54 : (5 : Nat) &&& 4 = 4 := by decide
  calc a &&& 4 = a &&& 5 &&& 4 := by rw [Nat.land_assoc, h54]
    _ = 0 &&& 4 := by rw [h]
    _ = 0 := by decide

/-! ## Once (sync/once.go)

`Once` holds a `done : uint32` flag and a guarding `Mutex`.  `Do(f)` reads
`done`; if it is 0 it enters `doSlow`, which takes the mutex, rechecks
`done`, and if still 0 runs `f` with `defer atomic.StoreUint32(&o.done, 1)`,
so `done` becomes 1 even when `f` panics.  Sequential model: the mutex makes
`doSlow` bodies atomic, so a call is a function of the `done` flag plus an
oracle `fPanics` for the behaviour of `f`.  A call returns the new state,
whether it executed `f`, and whether it panicked. -/

/-- State of a `Once`: the `done` flag. -/
structure Once where
  done : Nat
deriving DecidableEq, Repr

/-- Model of `Once.doSlow`: under the mutex, recheck `done`; if still 0, run
`f` (setting `done := 1` via the deferred store even if `f` panics). -/
def onceDoSlow (o : Once) (fPanics : Bool) : Once × Bool × Bool :=
  if o.done = 0 then (⟨1⟩, true, fPanics) else (o, false, false)

/-- Model of `Once.Do`: fast-path load of `done`, falling back to `doSlow`. -/
def onceDo (o : Once) (fPanics : Bool) : Once × Bool × Bool :=
  if o.done = 0 then onceDoSlow o fPanics else (o, false, false)

/-- Run a sequence of `Do` calls (each with its own `fPanics` oracle),
returning the final state and the total number of executions of `f`. -/
def onceRun (o : Once) : List Bool → Once × Nat
  | [] => (o, 0)
  | p :: ps =>
    let r := onceDo o p
    let rest := onceRun r.1 ps
    (rest.1, (if r.2.1 then 1 else 0) + rest.2)

/-- Helper: once `done = 1`, no later call executes `f` or changes state. -/
theorem onceRun_done (ps : List Bool) : onceRun ⟨1⟩ ps = (⟨1⟩, 0) := by
  induction ps with
  | nil => rfl
  | cons p ps ih => simp [onceRun, onceDo, ih]

/-- C1: for any nonempty sequence of `Do(f)` calls on a fresh `Once` — each
call's `f` allowed to panic or not — `f` executes exactly once, and the
`done` flag is set after the first call (even a panicking one), so every
later call returns without running `f`. -/
theorem once_do_executes_exactly_once (ps : List Bool) (h : ps ≠ []) :
    (onceRun ⟨0⟩ ps).2 = 1 ∧ (onceRun ⟨0⟩ ps).1 = ⟨1⟩ := by
  match ps with
  | [] => exact absurd rfl h
  | p :: ps => simp [onceRun, onceDo, onceDoSlow, onceRun_done ps]

/-- C1 witness: three calls, the first panicking: `f` still runs exactly once. -/
theorem once_do_executes_exactly_once_witness :
    ([true, false, true] : List Bool) ≠ [] ∧
      ((onceRun ⟨0⟩ [true, false, true]).2 = 1 ∧
        (onceRun ⟨0⟩ [true, false, true]).1 = ⟨1⟩) :=
  ⟨by decide, once_do_executes_exactly_once [true, false, true] (by decide)⟩

/-! ## Mutex (the Mutex file)

`Mutex.state` is an `int32` packing bits `{locked, woken, starving}` and the
waiter count in the remaining high bits; we keep the `uint32` bit pattern as
a `Nat`. -/

/-- Value of the `mutexLocked` flag (`1 << 0`). -/
def mutexLocked : Nat := 1

/-- Value of the `mutexWoken` flag (`1 << 1`). -/
def mutexWoken : Nat := 2

/-- Value of the `mutexStarving` flag (`1 << 2`). -/
def mutexStarving : Nat := 4

/-- Shift of the waiter-count field (`iota` = 3). -/
def mutexWaiterShift : Nat := 3

/-- Outcome of `Mutex.Unlock`: the fatal branch, or a normal return with the
new state word, the LIFO/handoff flag passed to `runtime_Semrelease`, and the
number of `runtime_Semrelease` calls made. -/
inductive UnlockOutcome where
  | fatal
  | ok (state : Nat) (handoff : Bool) (released : Nat)
deriving DecidableEq, Repr

/-- Model of `Mutex.unlockSlow` (sequential, so the normal-mode CAS loop
succeeds on its first iteration). -/
def mutexUnlockSlow (new : Nat) : UnlockOutcome :=
  if i32addBits new (mutexLocked : Int) &&& mutexLocked = 0 then
    .fatal
  else if new &&& mutexStarving = 0 then
    if new >>> mutexWaiterShift = 0 ∨
        new &&& (mutexLocked ||| mutexWoken ||| mutexStarving) ≠ 0 then
      .ok new false 0
    else
      .ok (i32addBits new (-((1 <<< mutexWaiterShift : Nat) : Int)) ||| mutexWoken)
        false 1
  else
    .ok new true 1

/-- Model of `Mutex.Unlock`: drop the locked bit; if the result is nonzero,
take the slow path. -/
def mutexUnlock (s : Nat) : UnlockOutcome :=
  if i32addBits s (-(mutexLocked : Int)) = 0 then .ok 0 false 0
  else mutexUnlockSlow (i32addBits s (-(mutexLocked : Int)))

/-- Model of `Mutex.TryLock`: fail if locked or starving; otherwise attempt
the CAS, whose success in the concurrent original depends on interference,
modelled by the oracle `casOk`. -/
def mutexTryLock (s : Nat) (casOk : Bool) : Bool × Nat :=
  if s &&& (mutexLocked ||| mutexStarving) ≠ 0 then (false, s)
  else if casOk then (true, s ||| mutexLocked) else (false, s)

/-- C2: `Unlock` of a mutex whose locked bit is clear reaches the
`fatal("sync: unlock of unlocked mutex")` branch rather than returning. -/
theorem mutex_unlock_of_unlocked_is_fatal (s : Nat) (hs : s < 2 ^ 32)
    (h : s &&& mutexLocked = 0) : mutexUnlock s = .fatal := by
  have h1 : s % 2 = 0 := by
    have := Nat.and_one_is_mod s
    simp only [mutexLocked] at h
    omega
  have hnew : i32addBits s (-(mutexLocked : Int)) = (s + 2 ^ 32 - 1) % 2 ^ 32 := by
    simp only [i32addBits, mutexLocked]
    push_cast
    omega
  have hne : (s + 2 ^ 32 - 1) % 2 ^ 32 ≠ 0 := by omega
  have hback : i32addBits ((s + 2 ^ 32 - 1) % 2 ^ 32) (mutexLocked : Int) = s := by
    simp only [i32addBits, mutexLocked]
    push_cast
    omega
  rw [mutexUnlock, hnew, if_neg hne, mutexUnlockSlow, hback, if_pos h]

/-- C2 witness: the zero (fully unlocked) mutex. -/
theorem mutex_unlock_of_unlocked_is_fatal_witness :
    (0 : Nat) < 2 ^ 32 ∧ 0 &&& mutexLocked = 0 ∧ mutexUnlock 0 = .fatal :=
  ⟨by norm_num, by decide, mutex_unlock_of_unlocked_is_fatal 0 (by norm_num) (by decide)⟩

/-- C3: `TryLock` observing a state with the locked bit or the starving bit
set returns `false` immediately (the model is a total function that performs
no semaphore acquire, so the caller is never suspended) and leaves the state
unchanged. -/
theorem mutex_trylock_fails_when_locked_or_starving (s : Nat) (casOk : Bool)
    (h : s &&& (mutexLocked ||| mutexStarving) ≠ 0) :
    mutexTryLock s casOk = (false, s) := by
  rw [mutexTryLock, if_pos h]

/-- C3 witness: a starving (but not locked) mutex refuses `TryLock` even
with an interference-free CAS. -/
theorem mutex_trylock_fails_when_locked_or_starving_witness :
    mutexStarving &&& (mutexLocked ||| mutexStarving) ≠ 0 ∧
      mutexTryLock mutexStarving true = (false, mutexStarving) :=
  ⟨by decide, mutex_trylock_fails_when_locked_or_starving mutexStarving true (by decide)⟩

/-! ## RWMutex (sync/rwmutex.go)

`RWMutex` holds an internal writer `Mutex w`, an `int32` `readerCount`
(decremented by `rwmutexMaxReaders` by a pending writer so its sign signals
"writer pending"), an `int32` `readerWait` of departing readers, and two
semaphores.  The `int32` counters are modelled as `Int` with explicit
two's-complement wrapping via `wrap32`. -/

/-- Constant `rwmutexMaxReaders = 1 << 30`. -/
def rwmutexMaxReaders : Int := 2 ^ 30

/-- Helper: `wrap32` is the identity on the `int32` range. -/
theorem wrap32_eq (x : Int) (h1 : -2 ^ 31 ≤ x) (h2 : x < 2 ^ 31) : wrap32 x = x := by
  unfold wrap32
  omega

/-- Outcome of `RWMutex.RUnlock`: the fatal branch, or a normal return with
the new `readerCount` and `readerWait` and whether the writer semaphore was
released. -/
inductive RUnlockOutcome where
  | fatal
  | ok (readerCount readerWait : Int) (writerReleased : Bool)
deriving DecidableEq, Repr

/-- Model of `RWMutex.rUnlockSlow`: fatal when the decremented count `r`
shows the lock was not read-locked; otherwise decrement `readerWait` and
release the writer semaphore exactly when it reaches zero. -/
def rwRUnlockSlow (rwt r : Int) : RUnlockOutcome :=
  if r + 1 = 0 ∨ r + 1 = -rwmutexMaxReaders then .fatal
  else if wrap32 (rwt - 1) = 0 then .ok r (wrap32 (rwt - 1)) true
  else .ok r (wrap32 (rwt - 1)) false

/-- Model of `RWMutex.RUnlock` on `readerCount = rc`, `readerWait = rwt`:
decrement `readerCount`; if the result is negative, take the slow path. -/
def rwRUnlock (rc rwt : Int) : RUnlockOutcome :=
  if wrap32 (rc - 1) < 0 then rwRUnlockSlow rwt (wrap32 (rc - 1))
  else .ok (wrap32 (rc - 1)) rwt false

/-- C5: `RUnlock` decrements `readerCount`; whenever the result is negative
(and the lock was actually read-locked, i.e. the fatal checks do not fire),
it decrements `readerWait` and releases the writer semaphore exactly when
that counter reaches zero; a nonnegative result leaves `readerWait` alone. -/
theorem rwmutex_runlock_decrements_and_releases_last (rc rwt : Int)
    (hrc1 : -2 ^ 31 < rc) (hrc2 : rc < 2 ^ 31)
    (hrwt1 : -2 ^ 31 < rwt) (hrwt2 : rwt < 2 ^ 31)
    (h0 : rc ≠ 0) (hmax : rc ≠ -rwmutexMaxReaders) :
    rwRUnlock rc rwt =
      if rc - 1 < 0 then .ok (rc - 1) (rwt - 1) (decide (rwt - 1 = 0))
      else .ok (rc - 1) rwt false := by
  have hrc : wrap32 (rc - 1) = rc - 1 := wrap32_eq _ (by omega) (by omega)
  have hrwt : wrap32 (rwt - 1) = rwt - 1 := wrap32_eq _ (by omega) (by omega)
  rw [rwRUnlock, hrc]
  by_cases hneg : rc - 1 < 0
  · rw [if_pos hneg, if_pos hneg, rwRUnlockSlow, hrwt]
    have hfatal : ¬(rc - 1 + 1 = 0 ∨ rc - 1 + 1 = -rwmutexMaxReaders) := by
      push_neg
      constructor <;> omega
    rw [if_neg hfatal]
    by_cases hz : rwt - 1 = 0
    · rw [if_pos hz, hz]
      simp
    · rw [if_neg hz]
      simp [hz]
  · rw [if_neg hneg, if_neg hneg]

/-- C5 witness: the last reader departing under a pending writer
(`readerCount = 1 - rwmutexMaxReaders`, `readerWait = 1`) releases the
writer semaphore. -/
theorem rwmutex_runlock_decrements_and_releases_last_witness :
    rwRUnlock (1 - rwmutexMaxReaders) 1 = .ok (-rwmutexMaxReaders) 0 true := by
  have h := rwmutex_runlock_decrements_and_releases_last (1 - rwmutexMaxReaders) 1
    (by norm_num [rwmutexMaxReaders]) (by norm_num [rwmutexMaxReaders])
    (by norm_num) (by norm_num)
    (by norm_num [rwmutexMaxReaders]) (by norm_num [rwmutexMaxReaders])
  rw [h]
  norm_num [rwmutexMaxReaders]

/-- Events performed by `RWMutex.Unlock`, in program order. -/
inductive RWEvent where
  | addMaxReaders
  | releaseReader
  | unlockW
deriving DecidableEq, Repr

/-- Model of `RWMutex.Unlock` (write unlock) on `readerCount = rc`: add
`rwmutexMaxReaders` back; fatal if the result shows no write lock was held;
otherwise release the reader semaphore once per iteration of the
`for i < int(r)` loop and finally unlock the internal mutex `w`.  Returns
the new `readerCount` and the ordered event trace, or `none` for fatal. -/
def rwWriteUnlock (rc : Int) : Option (Int × List RWEvent) :=
  if wrap32 (rc + rwmutexMaxReaders) ≥ rwmutexMaxReaders then none
  else
    some (wrap32 (rc + rwmutexMaxReaders),
      .addMaxReaders ::
        (List.replicate (wrap32 (rc + rwmutexMaxReaders)).toNat .releaseReader ++
          [.unlockW]))

/-- C6: write-unlocking an `RWMutex` that is write-held with `r` readers
blocked (`readerCount = r - rwmutexMaxReaders`) adds `rwmutexMaxReaders`
back to the counter, releases the reader semaphore exactly `r` times, and
then unlocks the internal mutex `w`, in that order. -/
theorem rwmutex_write_unlock_releases_each_reader_then_w (r : Nat)
    (hr : (r : Int) < rwmutexMaxReaders) :
    rwWriteUnlock ((r : Int) - rwmutexMaxReaders) =
      some ((r : Int),
        .addMaxReaders :: (List.replicate r .releaseReader ++ [.unlockW])) := by
  have hw : wrap32 ((r : Int) - rwmutexMaxReaders + rwmutexMaxReaders) = (r : Int) := by
    rw [show (r : Int) - rwmutexMaxReaders + rwmutexMaxReaders = (r : Int) by ring]
    exact wrap32_eq _ (by omega) (by simp only [rwmutexMaxReaders] at hr; omega)
  rw [rwWriteUnlock, hw, if_neg (by omega)]
  simp

/-- C6 witness: two blocked readers are both released before `w` is
unlocked. -/
theorem rwmutex_write_unlock_releases_each_reader_then_w_witness :
    rwWriteUnlock ((2 : Nat) - rwmutexMaxReaders) =
      some (((2 : Nat) : Int),
        .addMaxReaders :: (List.replicate 2 .releaseReader ++ [.unlockW])) :=
  rwmutex_write_unlock_releases_each_reader_then_w 2 (by norm_num [rwmutexMaxReaders])

/-- Model of `RWMutex.TryLock` on writer-mutex bit pattern `w` and
`readerCount = rc`: try the internal mutex; on success CAS `readerCount`
from 0 to `-rwmutexMaxReaders` (sequentially this succeeds exactly when
`rc = 0`), unlocking `w` again if the CAS fails.  `none` models reaching a
`fatal` inside the internal unlock (which cannot happen). -/
def rwTryLock (w : Nat) (rc : Int) (casOk : Bool) : Option (Bool × Nat × Int) :=
  match mutexTryLock w casOk with
  | (false, w2) => some (false, w2, rc)
  | (true, w2) =>
    if rc = 0 then some (true, w2, -rwmutexMaxReaders)
    else
      match mutexUnlock w2 with
      | .fatal => none
      | .ok w3 _ _ => some (false, w3, rc)

/-- Helper: unlocking `w ||| mutexLocked` for a word `w` with locked and
starving bits clear never hits the fatal branch and leaves the locked bit
clear (though the waiter count and woken bit may change). -/
theorem mutexUnlock_lor_locked_not_held (w : Nat) (hw : w < 2 ^ 32)
    (hw5 : w &&& (mutexLocked ||| mutexStarving) = 0) :
    ∃ st hf rel, mutexUnlock (w ||| mutexLocked) = .ok st hf rel ∧
      st &&& mutexLocked = 0 := by
  have hc5 : (mutexLocked ||| mutexStarving : Nat) = 5 := by decide
  rw [hc5] at hw5
  have h1 : w &&& 1 = 0 := land_one_of_land_five w hw5
  have h4 : w &&& 4 = 0 := land_four_of_land_five w hw5
  have h2 : w % 2 = 0 := by
    have := Nat.and_one_is_mod w
    omega
  have hlor : w ||| mutexLocked = w + 1 := by
    rw [show (mutexLocked : Nat) = 1 from rfl]
    exact lor_one_of_even w h2
  have hdec : i32addBits (w + 1) (-(mutexLocked : Int)) = w := by
    simp only [i32addBits, mutexLocked]
    push_cast
    omega
  rw [hlor, mutexUnlock, hdec]
  by_cases hw0 : w = 0
  · subst hw0
    rw [if_pos rfl]
    exact ⟨0, false, 0, rfl, by decide⟩
  · rw [if_neg hw0, mutexUnlockSlow]
    have hinc : i32addBits w (mutexLocked : Int) = w + 1 := by
      simp only [i32addBits, mutexLocked]
      push_cast
      omega
    have hodd : ¬(w + 1) &&& mutexLocked = 0 := by
      have := Nat.and_one_is_mod (w + 1)
      simp only [mutexLocked]
      omega
    rw [hinc, if_neg hodd, if_pos (show w &&& mutexStarving = 0 from h4)]
    by_cases hbr : w >>> mutexWaiterShift = 0 ∨
        w &&& (mutexLocked ||| mutexWoken ||| mutexStarving) ≠ 0
    · rw [if_pos hbr]
      exact ⟨w, false, 0, rfl, h1⟩
    · rw [if_neg hbr]
      push_neg at hbr
      obtain ⟨hsh, hmask⟩ := hbr
      have h8 : w % 8 = 0 := by
        have h7 : w &&& 7 = w % 8 := by
          have := Nat.and_pow_two_sub_one_eq_mod w 3
          norm_num at this
          exact this
        have hc7 : (mutexLocked ||| mutexWoken ||| mutexStarving : Nat) = 7 := by decide
        rw [hc7] at hmask
        omega
      have hge8 : 8 ≤ w := by
        have := Nat.shiftRight_eq_div_pow w 3
        rw [show mutexWaiterShift = 3 from rfl] at hsh
        by_contra hlt
        push_neg at hlt
        rw [this] at hsh
        omega
      have hsub : i32addBits w (-((1 <<< mutexWaiterShift : Nat) : Int)) = w - 8 := by
        simp only [i32addBits, mutexWaiterShift]
        push_cast
        omega
      have hsub8 : (w - 8) % 8 = 0 := by omega
      have hlor2 : (w - 8) ||| mutexWoken = w - 8 + 2 := by
        rw [show (mutexWoken : Nat) = 2 from rfl]
        exact lor_two_of_mod8 (w - 8) hsub8
      refine ⟨w - 8 + 2, false, 1, by rw [hsub, hlor2], ?_⟩
      have := Nat.and_one_is_mod (w - 8 + 2)
      simp only [mutexLocked]
      omega

/-- C10 counterexample: with the internal mutex in state 8 (one waiter,
unlocked) and one active reader, `TryLock` returns `false` but leaves the
internal mutex in state 2 (waiter woken and dequeued), not 8 — the RWMutex
is NOT left unchanged on failure. -/
theorem rwmutex_trylock_failure_changes_state :
    rwTryLock 8 1 true = some (false, 2, 1) ∧ (2 : Nat) ≠ 8 := by
  constructor
  · decide
  · decide

/-- C10 amended: whenever `TryLock` returns `false`, the reader counter is
unchanged and the call does not leave the internal mutex `w` held: if `w`'s
locked bit was clear on entry it is clear on return (w is never acquired, or
acquired and released again — though the release may change w's waiter count
and woken bit). -/
theorem rwmutex_trylock_failure_not_held (w : Nat) (rc : Int) (casOk : Bool)
    (hw : w < 2 ^ 32) (w2 : Nat) (rc2 : Int)
    (hres : rwTryLock w rc casOk = some (false, w2, rc2)) :
    rc2 = rc ∧ (w &&& mutexLocked = 0 → w2 &&& mutexLocked = 0) := by
  by_cases h5 : w &&& (mutexLocked ||| mutexStarving) ≠ 0
  · rw [rwTryLock, mutexTryLock, if_pos h5] at hres
    simp only [Option.some.injEq, Prod.mk.injEq, true_and] at hres
    obtain ⟨hw2, hrc2⟩ := hres
    subst hw2
    subst hrc2
    exact ⟨rfl, fun h => h⟩
  · push_neg at h5
    cases casOk with
    | false =>
      rw [rwTryLock, mutexTryLock, if_neg (by simpa using h5), if_neg (by simp)] at hres
      simp only [Option.some.injEq, Prod.mk.injEq, true_and] at hres
      obtain ⟨hw2, hrc2⟩ := hres
      subst hw2
      subst hrc2
      exact ⟨rfl, fun h => h⟩
    | true =>
      have htry : mutexTryLock w true = (true, w ||| mutexLocked) := by
        rw [mutexTryLock, if_neg (by simpa using h5), if_pos rfl]
      rw [rwTryLock, htry] at hres
      dsimp only at hres
      by_cases hrc : rc = 0
      · rw [if_pos hrc] at hres
        simp at hres
      · rw [if_neg hrc] at hres
        obtain ⟨st, hf, rel, heq, hbit⟩ := mutexUnlock_lor_locked_not_held w hw h5
        rw [heq] at hres
        simp only [Option.some.injEq, Prod.mk.injEq, true_and] at hres
        obtain ⟨hw2, hrc2⟩ := hres
        subst hw2
        subst hrc2
        exact ⟨rfl, fun _ => hbit⟩

/-- C10 amended witness: internal mutex free with a waiter queued (state 8),
one reader active: `TryLock` fails, the reader count is unchanged and `w`
ends with its locked bit clear. -/
theorem rwmutex_trylock_failure_not_held_witness :
    rwTryLock 8 1 true = some (false, 2, 1) ∧
      ((1 : Int) = 1 ∧ (8 &&& mutexLocked = 0 → 2 &&& mutexLocked = 0)) :=
  ⟨by decide, rwmutex_trylock_failure_not_held 8 1 true (by norm_num) 2 1 (by decide)⟩

/-! ## WaitGroup (sync/waitgroup.go)

`WaitGroup.state` is a `uint64`: high 32 bits the counter (an `int32`), low
32 bits the waiter count.  `Add(delta)` adds `uint64(delta) << 32` with
wrap-around, modelled as `(s + delta * 2^32) mod 2^64` on the `Nat` bit
pattern (equal because `uint64(delta) << 32 ≡ delta * 2^32 (mod 2^64)`). -/

/-- New state word after `wg.state.Add(uint64(delta) << 32)`. -/
def wgAddState (s : Nat) (delta : Int) : Nat :=
  (((s : Int) + delta * 2 ^ 32) % (2 ^ 64)).toNat

/-- Counter `v := int32(state >> 32)` after the add. -/
def wgVOf (s : Nat) (delta : Int) : Int := toInt32 (wgAddState s delta >>> 32)

/-- Waiter count `w := uint32(state)` after the add. -/
def wgWOf (s : Nat) (delta : Int) : Nat := wgAddState s delta % 2 ^ 32

/-- Outcome of `WaitGroup.Add`: one of the two panics, or a normal return
with the final state word and the number of `runtime_Semrelease` calls. -/
inductive AddOutcome where
  | panicNegative
  | panicMisuse
  | ok (state : Nat) (released : Nat)
deriving DecidableEq, Repr

/-- Model of `WaitGroup.Add` (sequential, so the final consistency re-load
`wg.state.Load() != state` never fires): panic on a negative counter or on
`Add` racing a `Wait`; return early while the counter is positive or no
waiter is registered; otherwise store 0 and release the semaphore once per
waiter. -/
def wgAdd (s : Nat) (delta : Int) : AddOutcome :=
  if wgVOf s delta < 0 then .panicNegative
  else if wgWOf s delta ≠ 0 ∧ delta > 0 ∧ wgVOf s delta = wrap32 delta then
    .panicMisuse
  else if wgVOf s delta > 0 ∨ wgWOf s delta = 0 then .ok (wgAddState s delta) 0
  else .ok 0 (wgWOf s delta)

/-- C4: whenever `Add` brings the packed counter (high 32 bits) to zero
while the waiter count (low 32 bits) is `w > 0`, the whole state word is
reset to zero and the semaphore is released exactly `w` times. -/
theorem waitgroup_add_zero_with_waiters_wakes_all (s : Nat) (delta : Int)
    (hd1 : -2 ^ 31 < delta) (hd2 : delta < 2 ^ 31)
    (hv : wgVOf s delta = 0) (hw : wgWOf s delta ≠ 0) :
    wgAdd s delta = .ok 0 (wgWOf s delta) := by
  rw [wgAdd, if_neg (by omega)]
  have hmis : ¬(wgWOf s delta ≠ 0 ∧ delta > 0 ∧ wgVOf s delta = wrap32 delta) := by
    rintro ⟨-, hpos, heq⟩
    rw [hv, wrap32_eq delta (by omega) hd2] at heq
    omega
  rw [if_neg hmis, if_neg (by omega)]

/-- C4 witness: counter 1 with one registered waiter, `Add(-1)`: the state
word is cleared and the single waiter is released. -/
theorem waitgroup_add_zero_with_waiters_wakes_all_witness :
    wgVOf (2 ^ 32 + 1) (-1) = 0 ∧ wgWOf (2 ^ 32 + 1) (-1) = 1 ∧
      wgAdd (2 ^ 32 + 1) (-1) = .ok 0 1 := by
  refine ⟨by decide, by decide, ?_⟩
  have h := waitgroup_add_zero_with_waiters_wakes_all (2 ^ 32 + 1) (-1)
    (by norm_num) (by norm_num) (by decide) (by decide)
  rw [h]
  decide

/-! ## Concurrent Map (sync/rwmutex.go, second half of the file)

`Map` holds an atomically swapped immutable snapshot `read = (m, amended)`,
a lock-guarded overlay `dirty` (nil or a map), and a `misses` counter.  An
entry's pointer is `nil`, the `expunged` sentinel, or a value.  Keys and
values are modelled as `Nat`, Go maps as association lists (first binding
wins, as `List.lookup`).  `Load` and `missLocked` only read entries, so
entry aliasing between `read` and `dirty` does not matter here. -/

/-- Contents of an `entry`'s pointer `p`. -/
inductive EntryP where
  | enil
  | expunged
  | val (v : Nat)
deriving DecidableEq, Repr

/-- Model of `entry.load`: `nil` and `expunged` both mean "no value". -/
def entryLoad : EntryP → Option Nat × Bool
  | .val v => (some v, true)
  | _ => (none, false)

/-- State of a `Map`: the `read` snapshot (`m` plus the `amended` flag), the
`dirty` overlay (`none` models a nil Go map), and the `misses` counter. -/
structure MapState where
  readm : List (Nat × EntryP)
  amended : Bool
  dirty : Option (List (Nat × EntryP))
  misses : Nat
deriving DecidableEq, Repr

/-- Length of the dirty overlay (`len` of a nil Go map is 0). -/
def MapState.dirtyLen (m : MapState) : Nat := (m.dirty.getD []).length

/-- Model of `Map.missLocked`: increment `misses`; once it is no longer
below `len(dirty)`, promote the overlay to be the new snapshot (with
`amended` false), clear `dirty` to nil and reset `misses`. -/
def missLocked (m : MapState) : MapState :=
  if m.misses + 1 < m.dirtyLen then
    { m with misses := m.misses + 1 }
  else
    { readm := m.dirty.getD [], amended := false, dirty := none, misses := 0 }

/-- Model of `Map.Load` (sequential, so the second load of `read` under the
lock sees the same snapshot): consult the snapshot; on a miss with
`amended`, take the lock, re-check, consult `dirty` and record a miss
whether or not the key was there.  Returns `(value, ok)` and the new map
state. -/
def mapLoad (m : MapState) (k : Nat) : (Option Nat × Bool) × MapState :=
  match (m.readm.lookup k : Option EntryP) with
  | some e => (entryLoad e, m)
  | none =>
    if m.amended then
      match (m.readm.lookup k : Option EntryP) with
      | some e => (entryLoad e, m)
      | none =>
        if m.amended then
          match ((m.dirty.getD []).lookup k : Option EntryP) with
          | some e => (entryLoad e, missLocked m)
          | none => ((none, false), missLocked m)
        else ((none, false), m)
    else ((none, false), m)

/-- C7: a lock-requiring lookup miss (key absent from the snapshot while
`amended` is set) goes through `missLocked`; `missLocked` increments the
miss counter and, as soon as it reaches `len(dirty)`, promotes the overlay
wholesale to be the new snapshot, clears `dirty` to nil and resets the
counter to zero. -/
theorem map_miss_increments_and_promotes (m : MapState) (k : Nat)
    (hk : m.readm.lookup k = none) (ha : m.amended = true) :
    (mapLoad m k).2 = missLocked m ∧
      (m.misses + 1 < m.dirtyLen →
        missLocked m = { m with misses := m.misses + 1 }) ∧
      (m.misses + 1 ≥ m.dirtyLen →
        missLocked m =
          { readm := m.dirty.getD [], amended := false, dirty := none,
            misses := 0 }) := by
  refine ⟨?_, ?_, ?_⟩
  · rw [mapLoad, hk]
    dsimp only
    rw [if_pos ha, if_pos ha]
    cases h : ((m.dirty.getD []).lookup k : Option EntryP) <;> rfl
  · intro h
    rw [missLocked, if_pos h]
  · intro h
    rw [missLocked, if_neg (by omega)]

/-- C7 witness: a map whose snapshot is empty but amended, dirty overlay of
size 2 with one prior miss: loading an absent key promotes the overlay,
clears it and resets the counter. -/
theorem map_miss_increments_and_promotes_witness :
    (([] : List (Nat × EntryP)).lookup 7 = none) ∧
      (mapLoad ⟨[], true, some [(1, .val 10), (2, .val 20)], 1⟩ 7).2 =
        missLocked ⟨[], true, some [(1, .val 10), (2, .val 20)], 1⟩ ∧
      missLocked ⟨[], true, some [(1, .val 10), (2, .val 20)], 1⟩ =
        ⟨[(1, .val 10), (2, .val 20)], false, none, 0⟩ := by
  have h := map_miss_increments_and_promotes
    ⟨[], true, some [(1, .val 10), (2, .val 20)], 1⟩ 7 (by decide) (by decide)
  exact ⟨by decide, h.1, by
    have := h.2.2 (by decide)
    simpa using this⟩

/-! ## Pool (sync/pool.go)

A `Pool` keeps per-worker shards (`poolLocal`), each with a `private` slot
and a `shared` chain, plus a victim generation from the previous cleanup
cycle and an optional `New` factory.  Items are modelled as `Nat`; a shard
array is a `List`; the caller is pinned to shard index `pid`. -/

/-- One `poolLocal`: the owner-only `private` slot and the `shared` chain
(head at the front of the list). -/
structure PoolLocal where
  priv : Option Nat
  shared : List Nat
deriving DecidableEq, Repr

/-- State of a `Pool`: current shards, victim shards, the `victimSize`
word, and the value the optional `New` factory would produce. -/
structure PoolState where
  locals : List PoolLocal
  victim : List PoolLocal
  victimSize : Nat
  newf : Option Nat
deriving DecidableEq, Repr

/-- Modelled from the spec: `poolChain.pushHead` (poolqueue.go is not under
src/); the shared chain is "pushed/popped at head by owner, popped at tail
by thieves", so pushing at the head prepends. -/
def poolChainPushHead (c : List Nat) (x : Nat) : List Nat := x :: c

/-- Modelled from the spec: `poolChain.popHead` takes the newest item at the
head of the shared chain, if any. -/
def poolChainPopHead (c : List Nat) : Option Nat × List Nat :=
  match c with
  | [] => (none, [])
  | x :: xs => (some x, xs)

/-- Modelled from the spec: `poolChain.popTail` steals the oldest item at
the tail of the shared chain, if any. -/
def poolChainPopTail (c : List Nat) : Option Nat × List Nat :=
  match c.reverse with
  | [] => (none, [])
  | x :: xs => (some x, xs.reverse)

/-- Shard lookup (`indexLocal`); out-of-range reads give an empty shard. -/
def getShard (ls : List PoolLocal) (i : Nat) : PoolLocal := (ls[i]?).getD ⟨none, []⟩

/-- Shard update. -/
def setShard (ls : List PoolLocal) (i : Nat) (s : PoolLocal) : List PoolLocal :=
  ls.set i s

/-- Model of `Pool.Put`: a nil item is dropped before pinning; otherwise the
pinned shard stores it in the empty `private` slot, or pushes it onto the
head of its `shared` chain. -/
def poolPut (p : PoolState) (pid : Nat) (x : Option Nat) : PoolState :=
  match x with
  | none => p
  | some v =>
    if (getShard p.locals pid).priv = none then
      { p with
        locals := setShard p.locals pid { getShard p.locals pid with priv := some v } }
    else
      { p with
        locals := setShard p.locals pid
          { getShard p.locals pid with
            shared := poolChainPushHead (getShard p.locals pid).shared v } }

/-- Pop the tail of shard `i`'s chain inside a shard array, as one steal
attempt does. -/
def popTailFrom (ls : List PoolLocal) (i : Nat) : Option Nat × List PoolLocal :=
  match poolChainPopTail (getShard ls i).shared with
  | (some x, c) => (some x, setShard ls i { getShard ls i with shared := c })
  | (none, _) => (none, ls)

/-- Try to steal from the tails of the shards at the given indices in
order, stopping at the first success. -/
def stealLoop (ls : List PoolLocal) : List Nat → Option Nat × List PoolLocal
  | [] => (none, ls)
  | i :: is =>
    match popTailFrom ls i with
    | (some x, ls2) => (some x, ls2)
    | (none, _) => stealLoop ls is

/-- Model of `Pool.getSlow`: steal from the other shards' tails in
round-robin order starting after `pid` (the loop `(pid+i+1) % size` for
`i < size`); then consult the victim generation — bail out if
`pid >= victimSize`, else its `private` slot at `pid`, else its tails
(`(pid+i) % size` for `i < size`), marking the victim empty
(`victimSize = 0`) when exhausted. -/
def poolGetSlow (p : PoolState) (pid : Nat) : Option Nat × PoolState :=
  match stealLoop p.locals
      ((List.range p.locals.length).map fun i => (pid + i + 1) % p.locals.length) with
  | (some x, ls2) => (some x, { p with locals := ls2 })
  | (none, _) =>
    if p.victimSize ≤ pid then (none, p)
    else
      match (getShard p.victim pid).priv with
      | some x =>
        (some x, { p with victim := setShard p.victim pid { getShard p.victim pid with priv := none } })
      | none =>
        match stealLoop p.victim
            ((List.range p.victimSize).map fun i => (pid + i) % p.victimSize) with
        | (some x, vs2) => (some x, { p with victim := vs2 })
        | (none, _) => (none, { p with victimSize := 0 })

/-- Model of `Pool.Get`: take the pinned shard's `private` slot (clearing
it); else pop the head of its own chain; else `getSlow`; if still empty and
a `New` factory is configured, return its result. -/
def poolGet (p : PoolState) (pid : Nat) : Option Nat × PoolState :=
  match (getShard p.locals pid).priv with
  | some v =>
    (some v, { p with locals := setShard p.locals pid { getShard p.locals pid with priv := none } })
  | none =>
    match poolChainPopHead (getShard p.locals pid).shared with
    | (some v, c) =>
      (some v, { p with locals := setShard p.locals pid { getShard p.locals pid with shared := c } })
    | (none, _) =>
      match poolGetSlow p pid with
      | (some v, p2) => (some v, p2)
      | (none, p2) =>
        match p2.newf with
        | some nv => (some nv, p2)
        | none => (none, p2)

/-- C9: `Put` of a nil item returns before pinning and leaves the whole
pool state — every shard's private slot and shared chain, the victim
generation and the factory — unchanged. -/
theorem pool_put_nil_noop (p : PoolState) (pid : Nat) : poolPut p pid none = p := rfl

/-- C8 counterexample: shard 0 already holds item 2 in its private slot;
`Put 1` then `Get` by the same pinned caller returns 2, not the item 1 that
was just put — the round-trip claim fails when the private slot is
occupied. -/
theorem pool_put_get_roundtrip_counterexample :
    (poolGet (poolPut ⟨[⟨some 2, []⟩], [], 0, none⟩ 0 (some 1)) 0).1 ≠ some 1 ∧
      (poolGet (poolPut ⟨[⟨some 2, []⟩], [], 0, none⟩ 0 (some 1)) 0).1 = some 2 := by
  constructor
  · decide
  · decide

/-- C8 amended: if the pinned shard's private slot is empty when `Put(x)`
runs (whatever its shared chain, the other shards, the victim generation or
the factory hold), an immediately following `Get` by the same single pinned
caller returns exactly `x`; when the private slot is occupied, `Get`
returns that private item instead. -/
theorem pool_put_get_roundtrip_empty_private (p : PoolState) (pid : Nat) (x : Nat)
    (hpid : pid < p.locals.length)
    (hpriv : (getShard p.locals pid).priv = none) :
    (poolGet (poolPut p pid (some x)) pid).1 = some x := by
  have hset : getShard (setShard p.locals pid { getShard p.locals pid with priv := some x }) pid
      = { getShard p.locals pid with priv := some x } := by
    rw [getShard, setShard, List.getElem?_set_self hpid]
    rfl
  rw [poolPut]
  dsimp only
  rw [if_pos hpriv]
  rw [poolGet]
  dsimp only
  rw [hset]

/-- C8 amended witness: empty private slot but a nonempty shared chain:
`Put 9` then `Get` returns 9 (not the older chained item 5). -/
theorem pool_put_get_roundtrip_empty_private_witness :
    (0 < (⟨[⟨none, [5]⟩], [], 0, none⟩ : PoolState).locals.length) ∧
      (poolGet (poolPut ⟨[⟨none, [5]⟩], [], 0, none⟩ 0 (some 9)) 0).1 = some 9 :=
  ⟨by decide, pool_put_get_roundtrip_empty_private ⟨[⟨none, [5]⟩], [], 0, none⟩ 0 9
    (by decide) (by decide)⟩
